import Mathlib

/-!
Verification development for the stackpack compression pipeline.

Byte sequences are modelled as `List Nat` (each element a byte value).
A mutator's Rust signature `fn(data: &[u8], buf: &mut Vec<u8>) -> Result<()>`
is modelled as a function taking the input slice and the output buffer's
contents on entry, and returning the buffer's contents on exit (`Except.ok`)
or the propagated error (`Except.error`), mirroring `anyhow::Result`.
-/

namespace Stackpack

/-- model of `DynMutator` from src/src/algorithms.rs: a pair of function
pointers for the forward and inverse transforms. -/
structure DynMutator where
  drive_mutation : List Nat → List Nat → Except String (List Nat)
  revert_mutation : List Nat → List Nat → Except String (List Nat)

/-- model of the double-buffer swap loop shared by
`CompressionPipeline::drive_mutation` and `revert_mutation`
(src/src/algorithms/pipeline.rs lines 82-96 and 127-141): `buf` and `inter`
are the contents of the caller's buffer and the intermediate buffer,
`r1_is_buf` records which of the two the reference `ref1` points to
(`ref1` starts at `buf`, `ref2` at `inter`).  Each stage reads through
`ref1`, writes through `ref2`, and then the two references are swapped.
On success the final contents of both physical buffers are returned
together with the final position of `ref1`. -/
def runSwapLoop (f : DynMutator → List Nat → List Nat → Except String (List Nat)) :
    List DynMutator → List Nat → List Nat → Bool → Except String (List Nat × List Nat × Bool)
  | [], buf, inter, r1_is_buf => Except.ok (buf, inter, r1_is_buf)
  | s :: rest, buf, inter, r1_is_buf =>
    match f s (if r1_is_buf then buf else inter) (if r1_is_buf then inter else buf) with
    | Except.error e => Except.error e
    | Except.ok written =>
      runSwapLoop f rest (if r1_is_buf then buf else written)
        (if r1_is_buf then written else inter) (!r1_is_buf)

/-- model of the body shared by `CompressionPipeline::drive_mutation` and
`revert_mutation` (src/src/algorithms/pipeline.rs lines 70-105 and 114-150),
parameterised by the direction `f`.  Length 0: return `Ok` leaving the
caller's buffer untouched.  Length 1: run the single stage from `data` into
the caller's buffer.  Length `n ≥ 2`: run the first stage from `data` into
the caller's buffer, run the remaining stages through the swap loop with a
fresh empty intermediate buffer, and finally swap the two buffers' contents
exactly when `n % 2 == 0`; the returned value is what the caller's buffer
holds on exit. -/
def runPipelineWith (f : DynMutator → List Nat → List Nat → Except String (List Nat)) :
    List DynMutator → List Nat → List Nat → Except String (List Nat)
  | [], _data, buf => Except.ok buf
  | [s], data, buf => f s data buf
  | s0 :: s1 :: rest, data, buf =>
    match f s0 data buf with
    | Except.error e => Except.error e
    | Except.ok buf0 =>
      match runSwapLoop f (s1 :: rest) buf0 [] true with
      | Except.error e => Except.error e
      | Except.ok (buf_final, inter_final, _) =>
        if ((s1 :: rest).length + 1) % 2 = 0 then Except.ok inter_final else Except.ok buf_final

/-- a compression pipeline is its ordered list of stages
(`CompressionPipeline` in src/src/algorithms/pipeline.rs). -/
abbrev CompressionPipeline := List DynMutator

/-- model of `CompressionPipeline::drive_mutation`
(src/src/algorithms/pipeline.rs lines 65-106): stages run in order `0..n`,
each with its `drive_mutation`. -/
def CompressionPipeline.drive_mutation (p : CompressionPipeline) (data buf : List Nat) :
    Except String (List Nat) :=
  runPipelineWith DynMutator.drive_mutation p data buf

/-- model of `CompressionPipeline::revert_mutation`
(src/src/algorithms/pipeline.rs lines 108-151): the same engine run over the
reversed stage list (stage `n-1` first, then `rev().skip(1)`), each stage
with its `revert_mutation`. -/
def CompressionPipeline.revert_mutation (p : CompressionPipeline) (data buf : List Nat) :
    Except String (List Nat) :=
  runPipelineWith DynMutator.revert_mutation p.reverse data buf

/-- the identity permutation of the 256 byte values, the `iota!` macro of
src/src/algorithms/mtf.rs. -/
def iota256 : List Nat := List.range 256

/-- model of the `pos` maintenance loop `for i in 1..=idx` of `mtf_encode`
(src/src/algorithms/mtf.rs lines 59-62), run after the alphabet rotation:
for each position `i` in `1..=idx` record that the byte now at `alph'[i]`
sits at index `i`. -/
def mtfUpdatePos (pos alph' : List Nat) (idx : Nat) : List Nat :=
  (List.range' 1 idx).foldl (fun p i => p.set (alph'.getD i 0) i) pos

/-- the per-byte loop of `mtf_encode` (src/src/algorithms/mtf.rs lines
46-64): look up the byte's current index, emit it, and unless it is already
at the front rotate the first `idx+1` alphabet entries right by one and
refresh the byte-to-index table. -/
def mtfEncodeGo : List Nat → List Nat → List Nat → List Nat → List Nat
  | [], _alph, _pos, out => out
  | b :: rest, alph, pos, out =>
    let idx := pos.getD b 0
    let out' := out ++ [idx]
    if idx = 0 then
      mtfEncodeGo rest alph pos out'
    else
      let byte := alph.getD idx 0
      let alph' := byte :: (alph.take idx ++ alph.drop (idx + 1))
      let pos' := (mtfUpdatePos pos alph' idx).set byte 0
      mtfEncodeGo rest alph' pos' out'

/-- model of `mtf_encode` (src/src/algorithms/mtf.rs lines 28-71).  On empty
input the function returns `Ok(())` before ever touching `buf`, so the
buffer's entry contents are the final contents; on nonempty input the buffer
is cleared and then filled with the emitted indices. -/
def mtf_encode (data : List Nat) (buf : List Nat) : Except String (List Nat) :=
  if data.isEmpty then Except.ok buf
  else Except.ok (mtfEncodeGo data iota256 iota256 [])

/-- the per-index loop of `mtf_decode` (src/src/algorithms/mtf.rs lines
92-101): emit the byte at the given index, then rotate the first `idx+1`
alphabet entries right by one. -/
def mtfDecodeGo : List Nat → List Nat → List Nat → List Nat
  | [], _alph, out => out
  | idx :: rest, alph, out =>
    let symbol := alph.getD idx 0
    let out' := out ++ [symbol]
    if idx = 0 then
      mtfDecodeGo rest alph out'
    else
      mtfDecodeGo rest (symbol :: (alph.take idx ++ alph.drop (idx + 1))) out'

/-- model of `mtf_decode` (src/src/algorithms/mtf.rs lines 73-108).  On
empty input the buffer is cleared and the function returns; on nonempty
input the buffer is cleared and filled with the decoded bytes. -/
def mtf_decode (encoded : List Nat) (_buf : List Nat) : Except String (List Nat) :=
  if encoded.isEmpty then Except.ok []
  else Except.ok (mtfDecodeGo encoded iota256 [])

/-- the MTF mutator (`pub const Mtf` of src/src/algorithms/mtf.rs). -/
def Mtf : DynMutator := ⟨mtf_encode, mtf_decode⟩

/-- a test stage that fails in both directions with a fixed diagnostic, used
to instantiate theorems that quantify over arbitrary stages of a pipeline. -/
def failStage : DynMutator :=
  ⟨fun _ _ => Except.error "boom", fun _ _ => Except.error "boom"⟩

/-- the 4-byte little-endian encoding of a 32-bit value
(`u32::to_le_bytes`). -/
def toLE4 (n : Nat) : List Nat :=
  [n % 256, n / 256 % 256, n / 65536 % 256, n / 16777216 % 256]

/-- the value of a 4-byte little-endian prefix (`u32::from_le_bytes`). -/
def fromLE4 (bs : List Nat) : Nat :=
  bs.getD 0 0 + bs.getD 1 0 * 256 + bs.getD 2 0 * 65536 + bs.getD 3 0 * 16777216

/-- lexicographic comparison of byte sequences, used to sort rotations. -/
def bytesLe : List Nat → List Nat → Bool
  | [], _ => true
  | _ :: _, [] => false
  | x :: xs, y :: ys => if x < y then true else if y < x then false else bytesLe xs ys

/-- all cyclic rotations of the input, rotation `i` starting at offset `i`. -/
def rotations (data : List Nat) : List (List Nat) :=
  (List.range data.length).map (fun i => data.drop i ++ data.take i)

/-- insertion of a rotation into a lexicographically sorted list. -/
def insertSorted (x : List Nat) : List (List Nat) → List (List Nat)
  | [] => [x]
  | y :: ys => if bytesLe x y then x :: y :: ys else y :: insertSorted x ys

/-- insertion sort of the rotation list by `bytesLe`. -/
def sortRotations (l : List (List Nat)) : List (List Nat) :=
  l.foldr insertSorted []

/-- Modelled from the spec: the primary index computed by the external
`libsais` crate inside `bwt_encode` is the row of the rotation starting at
offset 0 (the input itself) in the lexicographically sorted rotation list
(spec section 4.7 and glossary). -/
def bwtPrimaryIndex (data : List Nat) : Nat :=
  (sortRotations (rotations data)).indexOf data

/-- Modelled from the spec: the BWT payload computed by the external
`libsais` crate inside `bwt_encode` is the last column of the sorted
rotation matrix (spec section 4.7); its length equals the input length. -/
def bwtLastColumn (data : List Nat) : List Nat :=
  (sortRotations (rotations data)).map (fun r => r.getLastD 0)

/-- model of `bwt_encode` (src/src/algorithms/bwt.rs lines 16-42): for every
input the buffer is cleared and then filled with the 4-byte little-endian
primary index followed by the BWT last column; there is no short-input
passthrough in this function.  The BWT payload itself comes from the
external `libsais` crate and is modelled from the spec via
`bwtPrimaryIndex` and `bwtLastColumn`. -/
def bwt_encode (data : List Nat) (_buf : List Nat) : Except String (List Nat) :=
  Except.ok (toLE4 (bwtPrimaryIndex data) ++ bwtLastColumn data)

/-- the diagnostic produced by `bwt_decode` for an out-of-range primary
index (src/src/algorithms/bwt.rs line 66). -/
def bwtInvalidMsg (primary payload_len : Nat) : String :=
  "Invalid primary index: " ++ Nat.repr primary ++ " (bwt length: " ++ Nat.repr payload_len ++ ")"

/-- byte frequency table over the 256-byte alphabet (spec section 4.7
step 1, matching the commented reference decoder in
src/src/algorithms/bwt.rs). -/
def bwtFreq (payload : List Nat) : List Nat :=
  payload.foldl (fun f b => f.set b (f.getD b 0 + 1)) (List.replicate 256 0)

/-- cumulative starting positions of each byte in the sorted first column
(spec section 4.7 step 2). -/
def bwtStarts (freq : List Nat) : List Nat :=
  (List.range 256).map (fun b => (freq.take b).sum)

/-- the LF-mapping `LF[i] = starts[L[i]] + occurrences of L[i] in L[0..i]`
(spec section 4.7 step 3). -/
def bwtLF (payload : List Nat) : List Nat :=
  let starts := bwtStarts (bwtFreq payload)
  (List.range payload.length).map (fun i =>
    starts.getD (payload.getD i 0) 0 +
      ((payload.take i).filter (fun c => c == payload.getD i 0)).length)

/-- the LF walk filling the result right to left: the last position receives
`L[row]` for the starting row, earlier positions follow `row ← LF[row]`
(spec section 4.7 step 4). -/
def bwtWalk (payload lf : List Nat) : Nat → Nat → List Nat
  | 0, _row => []
  | Nat.succ k, row => bwtWalk payload lf k (lf.getD row 0) ++ [payload.getD row 0]

/-- Modelled from the spec: the inverse BWT performed by the external
`libsais` crate inside `bwt_decode` is the LF-mapping reconstruction of
spec section 4.7 (also present verbatim as the commented reference decoder
in src/src/algorithms/bwt.rs). -/
def inverseBwt (payload : List Nat) (primary : Nat) : List Nat :=
  bwtWalk payload (bwtLF payload) payload.length primary

/-- model of `bwt_decode` (src/src/algorithms/bwt.rs lines 44-101): inputs
shorter than 4 bytes are passed through unchanged; otherwise the first four
bytes are the little-endian primary index, an empty payload yields empty
output, a primary index not below the payload length is a failure, and
otherwise the payload is inverted via the (modelled) inverse BWT. -/
def bwt_decode (data : List Nat) (_buf : List Nat) : Except String (List Nat) :=
  if data.length < 4 then Except.ok data
  else
    let primary_index := fromLE4 (data.take 4)
    let bwt_payload := data.drop 4
    if bwt_payload.isEmpty then Except.ok []
    else if bwt_payload.length ≤ primary_index then
      Except.error (bwtInvalidMsg primary_index bwt_payload.length)
    else Except.ok (inverseBwt bwt_payload primary_index)

/-- the BWT mutator (`pub const Bwt` of src/src/algorithms/bwt.rs). -/
def Bwt : DynMutator := ⟨bwt_encode, bwt_decode⟩

/-- splitting of a textual pipeline description on the separator `->`,
modelling Rust's `str::split("->")` as used by `build_pipeline`
(src/src/cli/pipeline.rs line 13): non-overlapping occurrences scanned left
to right, with the empty string yielding the single part `""`. -/
def splitArrowGo : List Char → List Char → List (List Char)
  | [], acc => [acc.reverse]
  | '-' :: '>' :: rest, acc => acc.reverse :: splitArrowGo rest []
  | c :: rest, acc => splitArrowGo (rest) (c :: acc)

/-- whitespace trimming of a token, modelling `str::trim` as used by
`build_pipeline` (src/src/cli/pipeline.rs line 13). -/
def trimChars (s : List Char) : List Char :=
  ((s.dropWhile Char.isWhitespace).reverse.dropWhile Char.isWhitespace).reverse

/-- the resolution loop of `build_pipeline` (src/src/cli/pipeline.rs lines
17-29): each trimmed part is looked up in the registry by name and appended
to the pipeline; an unknown name aborts with a fatal error (the `panic!`),
modelled as `Except.error` carrying the offending token. -/
def resolveParts (registry : List (List Char)) : List (List Char) → Except (List Char) (List (List Char))
  | [] => Except.ok []
  | part :: rest =>
    let name := trimChars part
    if registry.contains name then
      match resolveParts registry rest with
      | Except.ok names => Except.ok (name :: names)
      | Except.error e => Except.error e
    else Except.error name

/-- model of the `PipelineSelection::Inline` arm of `build_pipeline`
(src/src/cli/pipeline.rs lines 12-32): split the description on `->`, trim
each part, and resolve every token against the registry.  The constructed
pipeline is represented by the list of resolved stage names. -/
def build_pipeline (registry : List (List Char)) (s : List Char) :
    Except (List Char) (List (List Char)) :=
  resolveParts registry (splitArrowGo s [])

/-- the names of the statically registered compressors
(src/src/registered.rs line 45: arcode, bwt, mtf, bsc, re_pair). -/
def registryNames : List (List Char) :=
  ["arcode".toList, "bwt".toList, "mtf".toList, "bsc".toList, "re_pair".toList]

/-- a run of consecutive stages under direction `f`, each succeeding with a
result that does not depend on the output buffer's entry contents: the list
of stages transforms the first value into the second. -/
inductive StageSeq (f : DynMutator → List Nat → List Nat → Except String (List Nat)) :
    List DynMutator → List Nat → List Nat → Prop
  | nil (x : List Nat) : StageSeq f [] x x
  | cons (s : DynMutator) (rest : List DynMutator) (x y z : List Nat)
      (hs : ∀ b, f s x b = Except.ok y)
      (h : StageSeq f rest y z) : StageSeq f (s :: rest) x z

/-- a pipeline run in which every stage's drive succeeds (with a
buffer-independent result) and every stage's revert maps that result back:
the per-stage round-trip law of the mutator contract, instantiated along the
chain of intermediate values of one encode run. -/
inductive RoundChain : List DynMutator → List Nat → List Nat → Prop
  | nil (x : List Nat) : RoundChain [] x x
  | cons (s : DynMutator) (rest : List DynMutator) (x y z : List Nat)
      (hd : ∀ b, s.drive_mutation x b = Except.ok y)
      (hr : ∀ b, s.revert_mutation y b = Except.ok x)
      (h : RoundChain rest y z) : RoundChain (s :: rest) x z

theorem StageSeq.append {f : DynMutator → List Nat → List Nat → Except String (List Nat)} :
    ∀ {l1 l2 : List DynMutator} {x y z : List Nat},
    StageSeq f l1 x y → StageSeq f l2 y z → StageSeq f (l1 ++ l2) x z := by
  intro l1
  induction l1 with
  | nil =>
    intro l2 x y z h1 h2
    cases h1
    simpa using h2
  | cons s rest ih =>
    intro l2 x y z h1 h2
    cases h1 with
    | cons _ _ _ y1 _ hs h1' => exact StageSeq.cons _ _ _ _ _ hs (ih h1' h2)

theorem RoundChain.toDrive {p : List DynMutator} {x z : List Nat} (h : RoundChain p x z) :
    StageSeq DynMutator.drive_mutation p x z := by
  induction h with
  | nil x => exact StageSeq.nil x
  | cons s rest x y z hd hr h ih => exact StageSeq.cons _ _ _ _ _ hd ih

theorem RoundChain.toRevert {p : List DynMutator} {x z : List Nat} (h : RoundChain p x z) :
    StageSeq DynMutator.revert_mutation p.reverse z x := by
  induction h with
  | nil x => exact StageSeq.nil x
  | cons s rest x y z hd hr h ih =>
    have single : StageSeq DynMutator.revert_mutation [s] y x :=
      StageSeq.cons _ _ _ _ _ hr (StageSeq.nil x)
    simpa using StageSeq.append ih single

/-- parity bookkeeping: appending one more stage flips the flag. -/
theorem decide_mod_two_flip (k : Nat) :
    decide ((k + 1) % 2 = 1) = !decide (k % 2 = 1) := by
  rcases Nat.mod_two_eq_zero_or_one k with h | h <;> simp [Nat.add_mod, h]

/-- correctness of the double-buffer swap loop on a succeeding run: if the
buffer currently designated by the flag holds the value `cur` and the
remaining stages form a succeeding buffer-independent run from `cur` to `z`,
the loop succeeds, its final flag is the entry flag flipped once per stage,
and the buffer the final flag designates holds `z` (the last-written
buffer is always the one `ref1` points to after the final swap). -/
theorem runSwapLoop_ok (f : DynMutator → List Nat → List Nat → Except String (List Nat)) :
    ∀ (stages : List DynMutator) (cur z buf inter : List Nat) (flag : Bool),
    (if flag then buf else inter) = cur →
    StageSeq f stages cur z →
    ∃ bufF interF,
      runSwapLoop f stages buf inter flag =
        Except.ok (bufF, interF, xor flag (decide (stages.length % 2 = 1))) ∧
      (if xor flag (decide (stages.length % 2 = 1)) then bufF else interF) = z := by
  intro stages
  induction stages with
  | nil =>
    intro cur z buf inter flag hcur hseq
    cases hseq
    exact ⟨buf, inter, by simp [runSwapLoop], by simpa using hcur⟩
  | cons s rest ih =>
    intro cur z buf inter flag hcur hseq
    cases hseq with
    | cons _ _ _ y _ hs hrest =>
      have hnext : (if !flag then (if flag then buf else y) else (if flag then y else inter)) = y := by
        cases flag <;> simp
      obtain ⟨bufF, interF, heq, hz⟩ :=
        ih y z (if flag then buf else y) (if flag then y else inter) (!flag) hnext hrest
      refine ⟨bufF, interF, ?_, ?_⟩
      · simp only [runSwapLoop, hcur, hs]
        rw [heq]
        have : xor (!flag) (decide (rest.length % 2 = 1)) =
            xor flag (decide ((s :: rest).length % 2 = 1)) := by
          simp only [List.length_cons, decide_mod_two_flip]
          cases flag <;> cases hb : decide (rest.length % 2 = 1) <;> simp
        rw [this]
      · have : xor (!flag) (decide (rest.length % 2 = 1)) =
            xor flag (decide ((s :: rest).length % 2 = 1)) := by
          simp only [List.length_cons, decide_mod_two_flip]
          cases flag <;> cases hb : decide (rest.length % 2 = 1) <;> simp
        rw [← this]
        exact hz

/-- correctness of the pipeline engine on a succeeding run: for a nonempty
stage list forming a succeeding buffer-independent run from `x` to `z`, the
engine returns `z` in the caller's buffer, whatever that buffer held on
entry. -/
theorem runPipelineWith_ok (f : DynMutator → List Nat → List Nat → Except String (List Nat)) :
    ∀ (p : List DynMutator) (x z buf : List Nat), p ≠ [] →
    StageSeq f p x z → runPipelineWith f p x buf = Except.ok z := by
  intro p x z buf hne h
  match p with
  | [] => exact absurd rfl hne
  | [s] =>
    cases h with
    | cons _ _ _ y _ hs hrest =>
      cases hrest
      simpa [runPipelineWith] using hs buf
  | s0 :: s1 :: rest =>
    cases h with
    | cons _ _ _ y _ hs hrest =>
      obtain ⟨bufF, interF, heq, hz⟩ :=
        runSwapLoop_ok f (s1 :: rest) y z y [] true rfl hrest
      have hred : runPipelineWith f (s0 :: s1 :: rest) x buf =
          (if ((s1 :: rest).length + 1) % 2 = 0 then Except.ok interF else Except.ok bufF) := by
        simp only [runPipelineWith, hs buf]
        rw [heq]
      rw [hred]
      simp only [List.length_cons] at hz ⊢
      rcases Nat.mod_two_eq_zero_or_one rest.length with hk | hk
      · have h2 : decide ((rest.length + 1) % 2 = 1) = true := by
          simp only [decide_eq_true_eq]; omega
        simp only [h2] at hz
        simp at hz
        rw [if_pos (by omega), hz]
      · have h2 : decide ((rest.length + 1) % 2 = 1) = false := by
          simp only [decide_eq_false_iff_not]; omega
        simp only [h2] at hz
        simp at hz
        rw [if_neg (by omega), hz]

/-- failure propagation through the swap loop: once the stages before the
failing stage have run, the failing stage's own error is returned
unchanged. -/
theorem runSwapLoop_error (f : DynMutator → List Nat → List Nat → Except String (List Nat)) :
    ∀ (pre : List DynMutator) (cur y buf inter : List Nat) (flag : Bool)
      (sk : DynMutator) (post : List DynMutator) (e : String),
    (if flag then buf else inter) = cur →
    StageSeq f pre cur y →
    (∀ b, f sk y b = Except.error e) →
    runSwapLoop f (pre ++ sk :: post) buf inter flag = Except.error e := by
  intro pre
  induction pre with
  | nil =>
    intro cur y buf inter flag sk post e hcur hseq hfail
    cases hseq
    simp only [List.nil_append, runSwapLoop, hcur, hfail]
  | cons s pre' ih =>
    intro cur y buf inter flag sk post e hcur hseq hfail
    cases hseq with
    | cons _ _ _ y1 _ hs hrest =>
      have hnext : (if !flag then (if flag then buf else y1) else (if flag then y1 else inter)) = y1 := by
        cases flag <;> simp
      have := ih y1 y (if flag then buf else y1) (if flag then y1 else inter) (!flag)
        sk post e hnext hrest hfail
      simp only [List.cons_append, runSwapLoop, hcur, hs]
      exact this

/-- failure propagation through the pipeline engine: if the stages before
stage `sk` succeed and `sk` fails with error `e`, the run returns exactly
`Except.error e`. -/
theorem runPipelineWith_error (f : DynMutator → List Nat → List Nat → Except String (List Nat)) :
    ∀ (pre post : List DynMutator) (sk : DynMutator) (x y buf : List Nat) (e : String),
    StageSeq f pre x y →
    (∀ b, f sk y b = Except.error e) →
    runPipelineWith f (pre ++ sk :: post) x buf = Except.error e := by
  intro pre post sk x y buf e hpre hfail
  match pre, post with
  | [], [] =>
    cases hpre
    simpa [runPipelineWith] using hfail buf
  | [], p1 :: post' =>
    cases hpre
    simp only [List.nil_append, runPipelineWith, hfail buf]
  | s0 :: pre', post =>
    cases hpre with
    | cons _ _ _ y0 _ hs hrest =>
      have hloop := runSwapLoop_error f pre' y0 y y0 [] true sk post e rfl hrest hfail
      match hsplit : pre' ++ sk :: post with
      | [] => simp at hsplit
      | s1 :: rest =>
        rw [hsplit] at hloop
        simp only [List.cons_append, hsplit, runPipelineWith, hs buf, hloop]

theorem length_insertSorted (x : List Nat) :
    ∀ l : List (List Nat), (insertSorted x l).length = l.length + 1 := by
  intro l
  induction l with
  | nil => rfl
  | cons y ys ih =>
    simp only [insertSorted]
    split
    · simp
    · simp [ih]

theorem length_sortRotations (l : List (List Nat)) :
    (sortRotations l).length = l.length := by
  induction l with
  | nil => rfl
  | cons y ys ih =>
    simp only [sortRotations, List.foldr] at ih ⊢
    rw [length_insertSorted, ih]
    simp

theorem length_bwtLastColumn (data : List Nat) :
    (bwtLastColumn data).length = data.length := by
  simp [bwtLastColumn, length_sortRotations, rotations]

/-- C1 (counterexample): the composition round trip fails for the empty
pipeline: with pipeline `[]` and input "Hello", driving and then reverting
from the conventional empty caller buffers yields `[]`, not the input. -/
theorem C1_empty_pipeline_counterexample :
    (CompressionPipeline.drive_mutation [] [72, 101, 108, 108, 111] []).bind
      (fun c => CompressionPipeline.revert_mutation [] c []) = Except.ok [] ∧
    (Except.ok [] : Except String (List Nat)) ≠ Except.ok [72, 101, 108, 108, 111] := by
  exact ⟨rfl, by simp⟩

/-- C1 (amended): for every pipeline with at least one stage and every input
for which each stage's drive succeeds with a buffer-independent result and
each stage's revert maps that result back, reverting the driven output
reproduces the input exactly, whatever the two caller buffers held on
entry. -/
theorem C1_pipeline_roundtrip (p : CompressionPipeline) (x z buf buf' : List Nat)
    (hne : p ≠ []) (hc : RoundChain p x z) :
    (CompressionPipeline.drive_mutation p x buf).bind
      (fun c => CompressionPipeline.revert_mutation p c buf') = Except.ok x := by
  have hd := runPipelineWith_ok DynMutator.drive_mutation p x z buf hne hc.toDrive
  have hrev := runPipelineWith_ok DynMutator.revert_mutation p.reverse z x buf'
    (by simpa using hne) hc.toRevert
  simp [CompressionPipeline.drive_mutation, CompressionPipeline.revert_mutation, hd, hrev,
    Except.bind]

/-- C1 (witness): the round trip at the concrete two-stage pipeline
`[Mtf, Mtf]` on input "aaaa". -/
theorem C1_pipeline_roundtrip_witness :
    (CompressionPipeline.drive_mutation [Mtf, Mtf] [97, 97, 97, 97] []).bind
      (fun c => CompressionPipeline.revert_mutation [Mtf, Mtf] c []) =
      Except.ok [97, 97, 97, 97] :=
  C1_pipeline_roundtrip [Mtf, Mtf] [97, 97, 97, 97] [97, 1, 0, 0] [] []
    (List.cons_ne_nil _ _)
    (RoundChain.cons Mtf [Mtf] [97, 97, 97, 97] [97, 0, 0, 0] [97, 1, 0, 0]
      (fun _ => rfl) (fun _ => rfl)
      (RoundChain.cons Mtf [] [97, 0, 0, 0] [97, 1, 0, 0] [97, 1, 0, 0]
        (fun _ => rfl) (fun _ => rfl)
        (RoundChain.nil [97, 1, 0, 0])))

/-- C2 (code bug exhibited): with the empty pipeline and input "Hello",
both drive and revert return success while leaving the caller's (empty)
output buffer empty, instead of copying the input into it as the claim
states. -/
theorem C2_empty_pipeline_behavior :
    CompressionPipeline.drive_mutation [] [72, 101, 108, 108, 111] [] = Except.ok [] ∧
    CompressionPipeline.revert_mutation [] [72, 101, 108, 108, 111] [] = Except.ok [] ∧
    ([] : List Nat) ≠ [72, 101, 108, 108, 111] := by
  exact ⟨rfl, rfl, by simp⟩

/-- C3 (counterexample): for `n = 0` the result does not land in the
caller's buffer: the buffer keeps its entry contents `[5, 6]` even though
the zero-stage result on input `[1]` is `[1]`. -/
theorem C3_parity_counterexample :
    CompressionPipeline.drive_mutation [] [1] [5, 6] = Except.ok [5, 6] ∧
    CompressionPipeline.revert_mutation [] [1] [5, 6] = Except.ok [5, 6] ∧
    ([5, 6] : List Nat) ≠ [1] := by
  exact ⟨rfl, rfl, by simp⟩

/-- C3 (amended): for every pipeline with `n ≥ 1` stages whose run succeeds
with buffer-independent stage results, the caller's buffer ends holding
exactly the composition of the stage outputs (`z` after drive, `x` after
revert), whatever it held on entry; in particular the normalising swap the
engine performs exactly when `n % 2 == 0` is correct for every such `n`. -/
theorem C3_result_in_caller_buffer (p : CompressionPipeline) (x z buf buf' : List Nat)
    (hne : p ≠ []) (hc : RoundChain p x z) :
    CompressionPipeline.drive_mutation p x buf = Except.ok z ∧
    CompressionPipeline.revert_mutation p z buf' = Except.ok x := by
  refine ⟨?_, ?_⟩
  · exact runPipelineWith_ok DynMutator.drive_mutation p x z buf hne hc.toDrive
  · exact runPipelineWith_ok DynMutator.revert_mutation p.reverse z x buf'
      (by simpa using hne) hc.toRevert

/-- C3 (witness): the three-stage pipeline `[Mtf, Mtf, Mtf]` on input
"aaaa", with garbage in both entry buffers. -/
theorem C3_result_in_caller_buffer_witness :
    CompressionPipeline.drive_mutation [Mtf, Mtf, Mtf] [97, 97, 97, 97] [9, 9] =
      Except.ok [97, 2, 2, 0] ∧
    CompressionPipeline.revert_mutation [Mtf, Mtf, Mtf] [97, 2, 2, 0] [8] =
      Except.ok [97, 97, 97, 97] :=
  C3_result_in_caller_buffer [Mtf, Mtf, Mtf] [97, 97, 97, 97] [97, 2, 2, 0] [9, 9] [8]
    (List.cons_ne_nil _ _)
    (RoundChain.cons Mtf [Mtf, Mtf] [97, 97, 97, 97] [97, 0, 0, 0] [97, 2, 2, 0]
      (fun _ => rfl) (fun _ => rfl)
      (RoundChain.cons Mtf [Mtf] [97, 0, 0, 0] [97, 1, 0, 0] [97, 2, 2, 0]
        (fun _ => rfl) (fun _ => rfl)
        (RoundChain.cons Mtf [] [97, 1, 0, 0] [97, 2, 2, 0] [97, 2, 2, 0]
          (fun _ => rfl) (fun _ => rfl)
          (RoundChain.nil [97, 2, 2, 0]))))

/-- C4 (counterexample): the surfaced error is not annotated with the stage
index: the same failing stage produces the identical error value `"boom"`
whether it sits at stage index 0 or at stage index 1, so the surfaced error
carries no stage-index information. -/
theorem C4_unannotated_error_counterexample :
    CompressionPipeline.drive_mutation [failStage] [0] [] = Except.error "boom" ∧
    CompressionPipeline.drive_mutation [Mtf, failStage] [97] [] = Except.error "boom" := by
  exact ⟨rfl, rfl⟩

/-- C4 (amended): if the stages before stage `k` succeed and stage `k`
fails during drive, the run aborts at stage `k` and surfaces that stage's
own error verbatim, with no stage-index annotation and no success result;
symmetrically for revert, where the stages after `k` run first in reverse
order. -/
theorem C4_failure_propagation (pre post : List DynMutator) (sk : DynMutator)
    (x y z w buf1 buf2 : List Nat) (e1 e2 : String)
    (hd : StageSeq DynMutator.drive_mutation pre x y)
    (hfd : ∀ b, sk.drive_mutation y b = Except.error e1)
    (hr : StageSeq DynMutator.revert_mutation post.reverse z w)
    (hfr : ∀ b, sk.revert_mutation w b = Except.error e2) :
    CompressionPipeline.drive_mutation (pre ++ sk :: post) x buf1 = Except.error e1 ∧
    CompressionPipeline.revert_mutation (pre ++ sk :: post) z buf2 = Except.error e2 := by
  constructor
  · exact runPipelineWith_error DynMutator.drive_mutation pre post sk x y buf1 e1 hd hfd
  · have hrev : (pre ++ sk :: post).reverse = post.reverse ++ sk :: pre.reverse := by
      simp
    show runPipelineWith DynMutator.revert_mutation (pre ++ sk :: post).reverse z buf2 =
      Except.error e2
    rw [hrev]
    exact runPipelineWith_error DynMutator.revert_mutation post.reverse pre.reverse sk
      z w buf2 e2 hr hfr

/-- C4 (witness): in the pipeline `[Mtf, failStage]`, the MTF stage succeeds
and the second stage fails; both directions surface exactly `"boom"`. -/
theorem C4_failure_propagation_witness :
    CompressionPipeline.drive_mutation [Mtf, failStage] [97, 97, 97, 97] [] =
      Except.error "boom" ∧
    CompressionPipeline.revert_mutation [Mtf, failStage] [5] [] = Except.error "boom" :=
  C4_failure_propagation [Mtf] [] failStage [97, 97, 97, 97] [97, 0, 0, 0] [5] [5] [] []
    "boom" "boom"
    (StageSeq.cons Mtf [] [97, 97, 97, 97] [97, 0, 0, 0] [97, 0, 0, 0] (fun _ => rfl)
      (StageSeq.nil [97, 0, 0, 0]))
    (fun _ => rfl)
    (StageSeq.nil [5])
    (fun _ => rfl)

/-- C5 (counterexample): a 1-byte input is not emitted unchanged by
`bwt_encode`: the output carries the 4-byte little-endian primary-index
prefix. -/
theorem C5_short_input_framed_counterexample :
    bwt_encode [65] [] = Except.ok [0, 0, 0, 0, 65] ∧
    (Except.ok [0, 0, 0, 0, 65] : Except String (List Nat)) ≠ Except.ok [65] := by
  exact ⟨rfl, by simp⟩

/-- C5 (amended): `bwt_encode` frames every input, whatever its length: on
success the output is the 4-byte little-endian primary index followed by the
input-length BWT last column, so its length is the input length plus 4; in
particular inputs of length `n < 4` are never emitted unchanged. -/
theorem C5_bwt_encode_always_frames (data buf out : List Nat)
    (h : bwt_encode data buf = Except.ok out) :
    out.length = data.length + 4 := by
  have h' := h
  simp only [bwt_encode, Except.ok.injEq] at h'
  rw [← h', List.length_append, length_bwtLastColumn]
  simp only [toLE4, List.length_cons, List.length_nil]
  omega

/-- C5 (witness): the framing length law at the 1-byte input `[65]`. -/
theorem C5_bwt_encode_always_frames_witness :
    ([0, 0, 0, 0, 65] : List Nat).length = ([65] : List Nat).length + 4 :=
  C5_bwt_encode_always_frames [65] [] [0, 0, 0, 0, 65] rfl

/-- C6: for every input of length at least 4, `bwt_decode` succeeds with
empty output when the payload after the 4-byte header is empty, and fails
with the malformed-input diagnostic whenever the payload is nonempty and the
little-endian primary index is at least the payload length. -/
theorem C6_bwt_decode_validation (data buf : List Nat) (h4 : 4 ≤ data.length) :
    (data.length = 4 → bwt_decode data buf = Except.ok []) ∧
    (4 < data.length → data.length - 4 ≤ fromLE4 (data.take 4) →
      bwt_decode data buf =
        Except.error (bwtInvalidMsg (fromLE4 (data.take 4)) (data.length - 4))) := by
  have hnotlt : ¬ data.length < 4 := Nat.not_lt.mpr h4
  constructor
  · intro hlen
    have hempty : data.drop 4 = [] := by
      rw [List.drop_eq_nil_iff]
      omega
    simp [bwt_decode, hnotlt, hempty]
  · intro hlen hprim
    have hne : (data.drop 4).isEmpty = false := by
      rw [List.isEmpty_eq_false_iff_exists_mem]
      have : data.drop 4 ≠ [] := by
        rw [Ne, List.drop_eq_nil_iff]
        omega
      exact List.exists_mem_of_ne_nil _ this
    have hlen4 : (data.drop 4).length = data.length - 4 := by simp
    simp [bwt_decode, hnotlt, hne, hlen4, hprim]

/-- C6 (witness): the two concrete scenarios of the claim: the bare header
`[0,0,0,0]` decodes to empty output, and `[255,255,255,255,65]` fails with
the primary-index diagnostic. -/
theorem C6_bwt_decode_validation_witness :
    bwt_decode [0, 0, 0, 0] [] = Except.ok [] ∧
    bwt_decode [255, 255, 255, 255, 65] [] = Except.error (bwtInvalidMsg 4294967295 1) := by
  constructor
  · exact (C6_bwt_decode_validation [0, 0, 0, 0] [] (by decide)).1 rfl
  · exact (C6_bwt_decode_validation [255, 255, 255, 255, 65] [] (by decide)).2
      (by decide) (by decide)

/-- C7: MTF drive on "aaaa" emits exactly `[97, 0, 0, 0]`, and MTF revert
on `[97, 0, 0, 0]` returns "aaaa". -/
theorem C7_mtf_concrete :
    mtf_encode [97, 97, 97, 97] [] = Except.ok [97, 0, 0, 0] ∧
    mtf_decode [97, 0, 0, 0] [] = Except.ok [97, 97, 97, 97] := by
  exact ⟨rfl, rfl⟩

/-- C8 (counterexample): parsing the empty textual description against the
registered compressor names fails with the fatal unknown-name error on the
empty token instead of yielding the empty pipeline. -/
theorem C8_empty_description_counterexample :
    build_pipeline registryNames [] = Except.error [] ∧
    (Except.error [] : Except (List Char) (List (List Char))) ≠ Except.ok [] := by
  exact ⟨rfl, by simp⟩

/-- C8 (amended): parsing the empty description does not yield an empty
pipeline: splitting the empty string on the arrow separator produces the
single empty token, whose trimmed form is the empty name, and any registry
containing no empty name rejects it, so the build aborts with the fatal
unknown-name error instead of returning a pipeline. -/
theorem C8_empty_description_fails (registry : List (List Char))
    (h : ([] : List Char) ∉ registry) :
    build_pipeline registry [] = Except.error [] := by
  simp [build_pipeline, splitArrowGo, resolveParts, trimChars, h]

/-- C8 (witness): the general empty-description failure at the concrete
stackpack registry. -/
theorem C8_empty_description_fails_witness :
    build_pipeline registryNames [] = Except.error [] :=
  C8_empty_description_fails registryNames (by decide)

/-- C9 (code bug exhibited): `mtf_encode` on the empty input (which is in
MTF's domain) returns success without clearing the output buffer, so the
final contents depend on what the buffer held on entry: two runs on the
same input from different entry buffers produce different outputs. -/
theorem C9_mtf_encode_buffer_dependence :
    mtf_encode [] [1] = Except.ok [1] ∧
    mtf_encode [] [] = Except.ok [] ∧
    mtf_encode [] [1] ≠ mtf_encode [] [] := by
  refine ⟨rfl, rfl, ?_⟩
  simp [mtf_encode]

/-- C10: `bwt_decode` on every input shorter than 4 bytes succeeds and
returns the input unchanged (passthrough), whatever the output buffer held
on entry. -/
theorem C10_bwt_decode_short_passthrough (data buf : List Nat) (h : data.length < 4) :
    bwt_decode data buf = Except.ok data := by
  simp [bwt_decode, h]

/-- C10 (witness): the passthrough at the 2-byte input `[1, 2]` with
garbage `[9, 9]` in the entry buffer. -/
theorem C10_bwt_decode_short_passthrough_witness :
    bwt_decode [1, 2] [9, 9] = Except.ok [1, 2] :=
  C10_bwt_decode_short_passthrough [1, 2] [9, 9] (by decide)

end Stackpack
